import Mathlib

/-
Verification of the score-reconciliation logic of `protflow/tools/rosetta.py`.

Python strings are modelled as `List Char` (`PyStr`), which matches Python's
view of a `str` as a sequence of characters.  Each definition below is a direct
translation of the corresponding Python code; the source line numbers of
`rosetta.py` are cited next to each definition.
-/

abbrev PyStr := List Char

deriving instance DecidableEq for Except

/-- Python `s.split(sep)` for a one-character separator: splits on every
occurrence of `sep`, keeping empty fragments (`"".split("_") == [""]`,
`"a_".split("_") == ["a", ""]`).  `consHead` prepends a character onto the
first fragment of an already-split tail. -/
def consHead (c : Char) : List (List Char) → List (List Char)
  | [] => [[c]]
  | t :: ts => (c :: t) :: ts

def pySplit (sep : Char) : List Char → List (List Char)
  | [] => [[]]
  | c :: rest => if c = sep then [] :: pySplit sep rest else consHead c (pySplit sep rest)

/-- Python `sep.join(parts)` for a one-character separator. -/
def joinWith (sep : Char) : List (List Char) → List Char
  | [] => []
  | [t] => t
  | t :: t2 :: ts => t ++ sep :: joinWith sep (t2 :: ts)

/-- Python `s.replace(pat, rep)`: replace every non-overlapping occurrence of
`pat` in `s` by `rep`, scanning left to right.  (The degenerate empty pattern
never occurs in the translated code.)  The `fuel` argument makes the recursion
structural; as every step consumes at least one character of `s`, a fuel of
`s.length` is always enough and the `fuel = 0` fallback is never reached. -/
def replaceFromAux (pat rep : List Char) : Nat → List Char → List Char
  | _, [] => []
  | 0, s => s
  | fuel + 1, c :: rest =>
    if pat ≠ [] ∧ pat.isPrefixOf (c :: rest) = true then
      rep ++ replaceFromAux pat rep fuel ((c :: rest).drop pat.length)
    else
      c :: replaceFromAux pat rep fuel rest

def replaceFrom (pat rep s : List Char) : List Char := replaceFromAux pat rep s.length s

/-- Whether `pat` occurs as a contiguous segment of `s`. -/
def containsSeq (pat : List Char) : List Char → Bool
  | [] => pat.isEmpty
  | c :: rest => pat.isPrefixOf (c :: rest) || containsSeq pat rest

/-- rosetta.py line 137: the `description` column is derived from the
`raw_description` column by
`split("_")` → take the slice `[1:-1]` → `"_".join` → append `"_"` and the
first `"_"`-token with every `"r"` removed (`.str.replace("r", "")`). -/
def deriveDescription (raw : PyStr) : PyStr :=
  joinWith '_' (((pySplit '_' raw).drop 1).dropLast)
    ++ '_' :: replaceFrom ['r'] [] ((pySplit '_' raw).headD [])

/-- The glob pattern `r*_*_score.json` (rosetta.py lines 74 and 132): the name
starts with `"r"`, ends with the literal `"_score.json"`, and the part between
those two contains at least one further underscore (matched by `*_*`). -/
def matchScoreJson (s : PyStr) : Bool :=
  "r".toList.isPrefixOf s
    && ("_score.json".toList.isSuffixOf s
    && ((s.drop 1).take (s.length - 12)).contains '_')

/-- The glob pattern `r*.pdb` (rosetta.py lines 140 and 156). -/
def matchRPdb (s : PyStr) : Bool :=
  "r".toList.isPrefixOf s && (".pdb".toList.isSuffixOf s && decide (5 ≤ s.length))

/-- rosetta.py lines 158-160: the sweep pass recovers the index from a leftover
`r*.pdb` file name and rebuilds the canonical name from the file name itself:
`idx = name.split("_")[0].replace("r", "")` and
`new_name = "_".join(name.split("_")[1:-1]).replace(".pdb", "") + "_" + idx + ".pdb"`. -/
def sweepNewName (name : PyStr) : PyStr :=
  replaceFrom ".pdb".toList [] (joinWith '_' (((pySplit '_' name).drop 1).dropLast))
    ++ '_' :: (replaceFrom ['r'] [] ((pySplit '_' name).headD []) ++ ".pdb".toList)

/-- One parsed score-record file (`pd.read_json(scorefile, typ='series')`,
rosetta.py line 135).  The mandatory `decoy` field is kept apart; the remaining
scoring fields pass through uninterpreted. -/
structure JobRecord where
  decoy : PyStr
  fields : List (PyStr × PyStr)
deriving DecidableEq

/-- One row of the consolidated table (rosetta.py lines 136-137): `decoy` is
renamed to `raw_description` and `description` is derived from it. -/
structure Row where
  raw_description : PyStr
  description : PyStr
  fields : List (PyStr × PyStr)
deriving DecidableEq

def parseErrMsg : PyStr := "ValueError: could not parse score file".toList

def keyErrMsg : PyStr := "KeyError: raw_description".toList

/-- rosetta.py lines 133-135: each discovered score file is parsed in turn;
a malformed file (`none`) makes `pd.read_json` raise, aborting the loop. -/
def parseAll : List (Option JobRecord) → Except PyStr (List JobRecord)
  | [] => .ok []
  | none :: _ => .error parseErrMsg
  | some r :: rest =>
    match parseAll rest with
    | .error e => .error e
    | .ok recs => .ok (r :: recs)

def toRow (r : JobRecord) : Row := ⟨r.decoy, deriveDescription r.decoy, r.fields⟩

/-- rosetta.py lines 132-137 (the table-building phase of `collect_scores`).
The input is the directory listing, each entry a file name paired with the
result of parsing its contents (`none` = malformed).  Only names matching
`r*_*_score.json` are read.  With no matching file, `pd.DataFrame([])` has no
columns at all, so the column access `scores_df["raw_description"]` on line 137
raises `KeyError`. -/
def collect_scores_table (files : List (PyStr × Option JobRecord)) :
    Except PyStr (List Row) :=
  match parseAll ((files.filter (fun p => matchScoreJson p.1)).map (fun p => p.2)) with
  | .error e => .error e
  | .ok recs => if recs.isEmpty then .error keyErrMsg else .ok (recs.map toRow)

/-- The directory contents after a successful `shutil.move(src, dst)`: `src` is
gone and `dst` is present (an existing `dst` is overwritten). -/
def movedFs (fs : List PyStr) (src dst : PyStr) : List PyStr :=
  dst :: (fs.filter (fun f => f ≠ src)).filter (fun f => f ≠ dst)

/-- Python `shutil.move(src, dst)` (rosetta.py lines 147, 150, 161): raises
`FileNotFoundError` when the source does not exist, else performs the move. -/
def shutilMove (fs : List PyStr) (src dst : PyStr) : Except PyStr (List PyStr) :=
  if src ∈ fs then .ok (movedFs fs src dst)
  else .error ("FileNotFoundError: ".toList ++ src)

/-- Number of files in the directory snapshot at time `t` matching `r*.pdb`. -/
def rpdbCount (trace : Nat → List PyStr) (t : Nat) : Nat :=
  ((trace t).filter (fun f => matchRPdb f)).length

/-- rosetta.py lines 140-141: `while len(glob(f"... r*.pdb")) < len(scores_df):
time.sleep(1)`.  `trace t` is the directory listing observed at the poll made
`t` time units after the loop was entered; the loop exits at the first poll
whose `r*.pdb` count reaches `n` and otherwise just sleeps and polls again.
`fuel` bounds how many polls we unfold; `none` means the loop is still
spinning after `fuel` polls. -/
def barrierLoop (trace : Nat → List PyStr) (n : Nat) : Nat → Nat → Option Nat
  | 0, _ => none
  | fuel + 1, t => if n ≤ rpdbCount trace t then some t else barrierLoop trace n fuel (t + 1)

/-- Observable effects of the rename loop: a `shutil.move` call, or the printed
`WARNING: Could not rename file ...` message. -/
inductive Ev where
  | moveAttempt : PyStr → PyStr → Ev
  | warn : PyStr → PyStr → Ev
deriving DecidableEq

/-- rosetta.py lines 146-150, one iteration of the rename loop:
`shutil.move(old.pdb, new.pdb)`, then `os.path.isfile(new.pdb)`; if the check
fails a warning is printed and the move is repeated once, unverified.  The
`isfile` check is modelled by `obs`, an observation of the directory that may
lag behind the true state (the benign race the warning exists for). -/
def renameOne (obs : List PyStr → PyStr → Bool) (fs : List PyStr)
    (oldName newName : PyStr) : Except PyStr (List PyStr) × List Ev :=
  match shutilMove fs (oldName ++ ".pdb".toList) (newName ++ ".pdb".toList) with
  | .error e => (.error e, [.moveAttempt (oldName ++ ".pdb".toList) (newName ++ ".pdb".toList)])
  | .ok fs1 =>
    if obs fs1 (newName ++ ".pdb".toList) then
      (.ok fs1, [.moveAttempt (oldName ++ ".pdb".toList) (newName ++ ".pdb".toList)])
    else
      match shutilMove fs1 (oldName ++ ".pdb".toList) (newName ++ ".pdb".toList) with
      | .error e =>
        (.error e,
          [.moveAttempt (oldName ++ ".pdb".toList) (newName ++ ".pdb".toList),
           .warn (oldName ++ ".pdb".toList) (newName ++ ".pdb".toList),
           .moveAttempt (oldName ++ ".pdb".toList) (newName ++ ".pdb".toList)])
      | .ok fs2 =>
        (.ok fs2,
          [.moveAttempt (oldName ++ ".pdb".toList) (newName ++ ".pdb".toList),
           .warn (oldName ++ ".pdb".toList) (newName ++ ".pdb".toList),
           .moveAttempt (oldName ++ ".pdb".toList) (newName ++ ".pdb".toList)])

/-- rosetta.py lines 144-150: the main rename loop over the
`(raw_description, description)` pairs of the table.  An exception from
`shutil.move` propagates and aborts the loop. -/
def renameLoop (obs : List PyStr → PyStr → Bool) (fs : List PyStr) :
    List (PyStr × PyStr) → Except PyStr (List PyStr) × List Ev
  | [] => (.ok fs, [])
  | (o, n) :: rest =>
    match renameOne obs fs o n with
    | (.error e, evs) => (.error e, evs)
    | (.ok fs1, evs) =>
      ((renameLoop obs fs1 rest).1, evs ++ (renameLoop obs fs1 rest).2)

/-- rosetta.py lines 139-150: the readiness barrier followed by the rename
loop.  `none` means the barrier is still polling, so no rename has been
attempted and nothing has failed. -/
def collectAfterTable (trace : Nat → List PyStr) (obs : List PyStr → PyStr → Bool)
    (table : List Row) (fuel : Nat) : Option (Except PyStr (List PyStr) × List Ev) :=
  match barrierLoop trace table.length fuel 0 with
  | none => none
  | some t =>
    some (renameLoop obs (trace t) (table.map fun r => (r.raw_description, r.description)))

/-- rosetta.py lines 156-161, the body of the sweep pass: rename each file of
the glob snapshot `rem` in turn; a `shutil.move` failure propagates. -/
def sweepGo (fs : List PyStr) : List PyStr → Except PyStr (List PyStr) × List (PyStr × PyStr)
  | [] => (.ok fs, [])
  | f :: rest =>
    match shutilMove fs f (sweepNewName f) with
    | .error e => (.error e, [(f, sweepNewName f)])
    | .ok fs1 => ((sweepGo fs1 rest).1, (f, sweepNewName f) :: (sweepGo fs1 rest).2)

/-- rosetta.py lines 155-161: glob the directory for leftover `r*.pdb` files
and rename each with the token-reordering of `sweepNewName`. -/
def sweepPhase (fs : List PyStr) : Except PyStr (List PyStr) × List (PyStr × PyStr) :=
  sweepGo fs (fs.filter (fun f => matchRPdb f))

/-- Observable effects of the pre-dispatch part of `Rosetta.run`. -/
inductive RunEv where
  | removeFile : PyStr → RunEv
  | dispatch : RunEv
deriving DecidableEq

/-- Modelled from the spec: `check_for_existing_scorefile` is defined in
`protflow/runners.py`, which is not part of this slice.  Per the spec's
external-interfaces section, a present scorefile with valid contents lets the
stage be skipped on re-run "unless the caller forces re-computation", so with
`overwrite` set it yields nothing and the run proceeds. -/
def check_for_existing_scorefile (overwrite : Bool) (stored : Option (List Row)) :
    Option (List Row) :=
  if overwrite then none else stored

/-- rosetta.py lines 69-95, the pre-dispatch phase of `Rosetta.run`: an early
return with the stored scores when the scorefile check succeeds; otherwise,
when `overwrite` is set and the work directory exists, every file matching
`r*_*_score.json` is removed (lines 73-77) and then the command batch is
handed to the jobstarter (line 90, the `dispatch` event).  Returns the early
result, the directory contents after cleanup, and the emitted events in
order. -/
def rosettaRunPhase1 (overwrite workdirExists : Bool) (stored : Option (List Row))
    (fs : List PyStr) : Option (List Row) × List PyStr × List RunEv :=
  match check_for_existing_scorefile overwrite stored with
  | some scores => (some scores, fs, [])
  | none =>
    if overwrite && workdirExists then
      (none, fs.filter (fun f => !matchScoreJson f),
        (fs.filter (fun f => matchScoreJson f)).map RunEv.removeFile ++ [RunEv.dispatch])
    else
      (none, fs, [RunEv.dispatch])

/-- Python `line.split()` (no separator): split on runs of whitespace and drop
empty fields. -/
def pySplitWsAux : List Char → List Char → List PyStr
  | acc, [] => if acc.isEmpty then [] else [acc.reverse]
  | acc, c :: rest =>
    if c.isWhitespace then
      if acc.isEmpty then pySplitWsAux [] rest else acc.reverse :: pySplitWsAux [] rest
    else
      pySplitWsAux (c :: acc) rest

def pySplitWs (s : PyStr) : List PyStr := pySplitWsAux [] s

/-- Python `f.readlines()`: the file content cut after every newline, each
line keeping its trailing newline character. -/
def pyReadlinesAux : List Char → List Char → List PyStr
  | acc, [] => if acc.isEmpty then [] else [acc.reverse]
  | acc, c :: rest =>
    if c = '\n' then (c :: acc).reverse :: pyReadlinesAux [] rest
    else pyReadlinesAux (c :: acc) rest

def pyReadlines (s : PyStr) : List PyStr := pyReadlinesAux [] s

/-- rosetta.py line 173: `scores = [line.split() for line in f.readlines()[1:]]`. -/
def scoresLines (content : PyStr) : List (List PyStr) :=
  ((pyReadlines content).drop 1).map pySplitWs

/-- rosetta.py line 176: keep the lines whose field count equals that of the
first remaining line (`scores[0]`; with no remaining line the comprehension is
empty and `scores[0]` is never evaluated). -/
def scoresCleaned (content : PyStr) : List (List PyStr) :=
  (scoresLines content).filter (fun line => line.length = ((scoresLines content).headD []).length)

/-- rosetta.py line 181: `"\n".join([",".join(line) for line in scores_cleaned])`. -/
def cleanedContent (content : PyStr) : PyStr :=
  joinWith '\n' ((scoresCleaned content).map (fun line => joinWith ',' line))

/-- rosetta.py lines 168-182, `clean_rosetta_scorefile`: read the file at
`pathToFile`, drop its first line, whitespace-split the rest, keep the lines
whose field count equals that of the first remaining line, write them to
`outPath` joined by commas and newlines, and return `outPath`.  The filesystem
is a map from path to file content; only `outPath` is written. -/
def clean_rosetta_scorefile (fs : PyStr → Option PyStr) (pathToFile outPath : PyStr) :
    Except PyStr ((PyStr → Option PyStr) × PyStr) :=
  match fs pathToFile with
  | none => .error ("FileNotFoundError: ".toList ++ pathToFile)
  | some content =>
    .ok ((fun p => if p = outPath then some (cleanedContent content) else fs p), outPath)


theorem pySplit_ne_nil (sep : Char) (s : List Char) : pySplit sep s ≠ [] := by
  induction s with
  | nil => simp [pySplit]
  | cons c rest ih =>
    simp only [pySplit]
    split
    · simp
    · cases hp : pySplit sep rest with
      | nil => simp [consHead]
      | cons t ts => simp [consHead]

theorem getLastD_congr (l : List (List Char)) (d d' : List Char) (h : l ≠ []) :
    l.getLastD d = l.getLastD d' := by
  cases l with
  | nil => exact absurd rfl h
  | cons a as => simp only [List.getLastD_cons]

theorem pySplit_not_mem (sep : Char) (b : List Char) (hb : sep ∉ b) :
    pySplit sep b = [b] := by
  induction b with
  | nil => rfl
  | cons c rest ih =>
    have hc : ¬ c = sep := fun h => hb (h ▸ List.mem_cons_self c rest)
    have hr : sep ∉ rest := fun h => hb (List.mem_cons_of_mem _ h)
    simp [pySplit, hc, ih hr, consHead]

theorem pySplit_append (sep : Char) (a b : List Char) (hb : sep ∉ b) :
    pySplit sep (a ++ b)
      = (pySplit sep a).dropLast ++ [(pySplit sep a).getLastD [] ++ b] := by
  induction a with
  | nil => simp [pySplit_not_mem sep b hb, pySplit]
  | cons c a' ih =>
    rcases hP : pySplit sep a' with _ | ⟨p, ps⟩
    · exact absurd hP (pySplit_ne_nil sep a')
    have key : pySplit sep (a' ++ b) = (p :: ps).dropLast ++ [(p :: ps).getLastD [] ++ b] := by
      rw [ih, hP]
    by_cases hc : c = sep
    · subst hc
      have l1 : pySplit c (c :: (a' ++ b)) = [] :: pySplit c (a' ++ b) := by simp [pySplit]
      have l2 : pySplit c (c :: a') = [] :: pySplit c a' := by simp [pySplit]
      rw [List.cons_append, l1, key, l2, hP]
      simp only [List.dropLast_cons₂, List.getLastD_cons, List.cons_append]
    · have l1 : pySplit sep (c :: (a' ++ b)) = consHead c (pySplit sep (a' ++ b)) := by
        simp [pySplit, hc]
      have l2 : pySplit sep (c :: a') = consHead c (pySplit sep a') := by
        simp [pySplit, hc]
      rw [List.cons_append, l1, key, l2, hP]
      cases ps with
      | nil => simp [consHead]
      | cons q qs =>
        simp only [List.dropLast_cons₂, List.cons_append, consHead, List.getLastD_cons]

theorem replaceFromAux_not_contains (pat rep : List Char) (s : List Char) (fuel : Nat)
    (h : containsSeq pat s = false) : replaceFromAux pat rep fuel s = s := by
  induction s generalizing fuel with
  | nil => cases fuel <;> rfl
  | cons c rest ih =>
    cases fuel with
    | zero => rfl
    | succ fuel =>
      simp only [containsSeq, Bool.or_eq_false_iff] at h
      simp only [replaceFromAux]
      rw [if_neg fun hcon => absurd hcon.2 (by simp [h.1]), ih fuel h.2]

theorem replaceFrom_not_contains (pat rep s : List Char)
    (h : containsSeq pat s = false) : replaceFrom pat rep s = s :=
  replaceFromAux_not_contains pat rep s s.length h

/-- On a file name of the standard artifact shape `{raw}.pdb`, where `raw` has
at least two underscore-separated tokens and the kept middle tokens contain no
occurrence of `".pdb"`, the sweep pass's token reordering of the file name
(rosetta.py lines 158-160) produces exactly the canonical
`{description}.pdb` of the row rule (line 137). -/
theorem sweepNewName_append_pdb (raw : PyStr)
    (h1 : 2 ≤ (pySplit '_' raw).length)
    (h2 : containsSeq ".pdb".toList
      (joinWith '_' (((pySplit '_' raw).drop 1).dropLast)) = false) :
    sweepNewName (raw ++ ".pdb".toList) = deriveDescription raw ++ ".pdb".toList := by
  have hb : '_' ∉ ".pdb".toList := by decide
  have hsplit := pySplit_append '_' raw ".pdb".toList hb
  rcases hP : pySplit '_' raw with _ | ⟨t0, _ | ⟨t1, ts⟩⟩
  · exact absurd hP (pySplit_ne_nil '_' raw)
  · rw [hP] at h1; simp at h1
  rw [hP] at hsplit h2
  simp only [List.dropLast_cons₂, List.getLastD_cons, List.cons_append] at hsplit
  simp only [List.drop_one, List.dropLast_cons₂, List.tail_cons] at h2
  unfold sweepNewName deriveDescription
  rw [hsplit, hP]
  simp only [List.headD_cons, List.drop_one, List.tail_cons, List.dropLast_concat,
    List.dropLast_cons₂]
  rw [replaceFrom_not_contains _ _ _ h2]
  simp

theorem parseAll_map_some (recs : List JobRecord) : parseAll (recs.map some) = .ok recs := by
  induction recs with
  | nil => rfl
  | cons r rest ih => simp [parseAll, ih]

theorem parseAll_ok_eq (l : List (Option JobRecord)) (recs : List JobRecord)
    (h : parseAll l = .ok recs) : l = recs.map some := by
  induction l generalizing recs with
  | nil =>
    simp only [parseAll] at h
    cases h
    rfl
  | cons o rest ih =>
    cases o with
    | none => simp [parseAll] at h
    | some r =>
      cases hr : parseAll rest with
      | error e => simp [parseAll, hr] at h
      | ok recs' =>
        simp only [parseAll, hr] at h
        cases h
        simp [ih recs' hr]

theorem parseAll_none_mem (l : List (Option JobRecord)) (h : none ∈ l) :
    parseAll l = .error parseErrMsg := by
  induction l with
  | nil => cases h
  | cons o rest ih =>
    cases o with
    | none => rfl
    | some r =>
      have : none ∈ rest := by
        rcases List.mem_cons.mp h with h1 | h1
        · cases h1
        · exact h1
      simp [parseAll, ih this]

theorem all_some_eq_filterMap (l : List (Option JobRecord)) (h : ∀ x ∈ l, x ≠ none) :
    l = (l.filterMap id).map some := by
  induction l with
  | nil => rfl
  | cons o rest ih =>
    cases o with
    | none => exact absurd rfl (h none (List.mem_cons_self _ _))
    | some r =>
      simp only [List.filterMap_cons, id, List.map_cons]
      rw [← ih (fun x hx => h x (List.mem_cons_of_mem _ hx))]

theorem collect_scores_table_ok (files : List (PyStr × Option JobRecord)) (rows : List Row)
    (h : collect_scores_table files = .ok rows) :
    ∃ recs, parseAll ((files.filter (fun p => matchScoreJson p.1)).map (fun p => p.2)) = .ok recs
      ∧ recs ≠ [] ∧ rows = recs.map toRow := by
  unfold collect_scores_table at h
  cases hp : parseAll ((files.filter (fun p => matchScoreJson p.1)).map (fun p => p.2)) with
  | error e => rw [hp] at h; cases h
  | ok recs =>
    rw [hp] at h
    dsimp only at h
    by_cases he : recs.isEmpty
    · rw [if_pos he] at h; cases h
    · rw [if_neg he] at h
      cases h
      exact ⟨recs, rfl, fun hn => he (by simp [hn]), rfl⟩

theorem barrierLoop_some (trace : Nat → List PyStr) (n fuel t0 t : Nat)
    (h : barrierLoop trace n fuel t0 = some t) :
    n ≤ rpdbCount trace t ∧ ∀ s, t0 ≤ s → s < t → rpdbCount trace s < n := by
  induction fuel generalizing t0 with
  | zero => simp [barrierLoop] at h
  | succ fuel ih =>
    rw [barrierLoop] at h
    by_cases hc : n ≤ rpdbCount trace t0
    · rw [if_pos hc] at h
      cases h
      exact ⟨hc, fun s hs1 hs2 => absurd hs2 (by omega)⟩
    · rw [if_neg hc] at h
      obtain ⟨h1, h2⟩ := ih (t0 + 1) h
      refine ⟨h1, fun s hs1 hs2 => ?_⟩
      by_cases hst : s = t0
      · rw [hst]; exact Nat.lt_of_not_le hc
      · exact h2 s (by omega) hs2

theorem barrierLoop_none (trace : Nat → List PyStr) (n fuel t0 : Nat)
    (h : ∀ s, rpdbCount trace s < n) : barrierLoop trace n fuel t0 = none := by
  induction fuel generalizing t0 with
  | zero => rfl
  | succ fuel ih =>
    rw [barrierLoop, if_neg (Nat.not_le.mpr (h t0))]
    exact ih (t0 + 1)

theorem src_not_mem_movedFs (fs : List PyStr) (src dst : PyStr) (hne : dst ≠ src) :
    src ∉ movedFs fs src dst := by
  intro hmem
  rcases List.mem_cons.mp hmem with h1 | h1
  · exact hne h1.symm
  · have h2 := (List.mem_filter.mp (List.mem_filter.mp h1).1).2
    simp at h2

theorem mem_movedFs_of (fs : List PyStr) (src dst g : PyStr) (hg : g ∈ fs) (hne : g ≠ src) :
    g ∈ movedFs fs src dst := by
  by_cases hd : g = dst
  · rw [hd]; exact List.mem_cons_self _ _
  · exact List.mem_cons_of_mem _
      (List.mem_filter.mpr ⟨List.mem_filter.mpr ⟨hg, by simp [hne]⟩, by simp [hd]⟩)

theorem sweepGo_ok (rem : List PyStr) :
    ∀ fs : List PyStr, (∀ f ∈ rem, f ∈ fs) → rem.Nodup →
      ∃ g, sweepGo fs rem = (.ok g, rem.map (fun f => (f, sweepNewName f))) := by
  induction rem with
  | nil => exact fun fs _ _ => ⟨fs, rfl⟩
  | cons f rest ih =>
    intro fs hmem hnd
    have hf : f ∈ fs := hmem f (List.mem_cons_self _ _)
    have hmv : shutilMove fs f (sweepNewName f) = .ok (movedFs fs f (sweepNewName f)) := by
      simp [shutilMove, hf]
    have hnotin : f ∉ rest := (List.nodup_cons.mp hnd).1
    obtain ⟨g, hg⟩ := ih (movedFs fs f (sweepNewName f))
      (fun x hx => mem_movedFs_of _ _ _ _ (hmem x (List.mem_cons_of_mem _ hx))
        (fun he => hnotin (he ▸ hx)))
      (List.nodup_cons.mp hnd).2
    refine ⟨g, ?_⟩
    simp [sweepGo, hmv, hg]

/-- C1 (counterexample): the claimed derivation keeps every token after the
first, but line 137 slices `[1:-1]`, dropping the last token as well.  A
record with decoy `r0007_myprotein_design` flows through the table phase to
description `myprotein_0007`, not the claimed `myprotein_design_0007`, and
`0001_foo` yields `_0001`, not `foo_0001`. -/
theorem c1_counterexample :
    collect_scores_table
        [("r0007_mp_score.json".toList, some ⟨"r0007_myprotein_design".toList, []⟩)]
      = .ok [⟨"r0007_myprotein_design".toList, "myprotein_0007".toList, []⟩]
    ∧ "myprotein_0007".toList ≠ "myprotein_design_0007".toList
    ∧ deriveDescription "0001_foo".toList ≠ "foo_0001".toList :=
  ⟨by decide, by decide, by decide⟩

/-- C1 (amended): for every row produced by the table phase of
`collect_scores`, the description is the underscore-tokens of
`raw_description` with both the first and the last token dropped, joined by
`"_"`, followed by `"_"` and the first token with every `"r"` removed;
`r0007_myprotein_design` yields `myprotein_0007` and `0001_foo` yields
`_0001`. -/
theorem c1_amended_description_rule (files : List (PyStr × Option JobRecord))
    (rows : List Row) (r : Row)
    (h : collect_scores_table files = .ok rows) (hr : r ∈ rows) :
    r.description
      = joinWith '_' (((pySplit '_' r.raw_description).drop 1).dropLast)
        ++ '_' :: replaceFrom ['r'] [] ((pySplit '_' r.raw_description).headD [])
    ∧ deriveDescription "r0007_myprotein_design".toList = "myprotein_0007".toList
    ∧ deriveDescription "0001_foo".toList = "_0001".toList := by
  obtain ⟨recs, hp, hne, hrows⟩ := collect_scores_table_ok files rows h
  subst hrows
  obtain ⟨rec, hrec, hre⟩ := List.mem_map.mp hr
  subst hre
  exact ⟨rfl, by decide, by decide⟩

theorem c1_witness :
    (Row.mk "0001_a_x".toList "a_0001".toList []).description
      = joinWith '_'
          (((pySplit '_' (Row.mk "0001_a_x".toList "a_0001".toList []).raw_description).drop 1).dropLast)
        ++ '_' :: replaceFrom ['r'] []
          ((pySplit '_' (Row.mk "0001_a_x".toList "a_0001".toList []).raw_description).headD [])
    ∧ deriveDescription "r0007_myprotein_design".toList = "myprotein_0007".toList
    ∧ deriveDescription "0001_foo".toList = "_0001".toList :=
  c1_amended_description_rule
    [("r0001_a_score.json".toList, some ⟨"0001_a_x".toList, []⟩)]
    [⟨"0001_a_x".toList, "a_0001".toList, []⟩]
    ⟨"0001_a_x".toList, "a_0001".toList, []⟩
    (by decide) (by decide)

/-- C2 (counterexample): two record files with distinct decoys `0001_foo_a`
and `0001_foo_b` both derive description `foo_0001` (the `[1:-1]` slice erases
the distinguishing last token), so the returned table carries a duplicated
description. -/
theorem c2_counterexample :
    collect_scores_table
        [("r0001_fa_score.json".toList, some ⟨"0001_foo_a".toList, []⟩),
         ("r0001_fb_score.json".toList, some ⟨"0001_foo_b".toList, []⟩)]
      = .ok [⟨"0001_foo_a".toList, "foo_0001".toList, []⟩,
             ⟨"0001_foo_b".toList, "foo_0001".toList, []⟩]
    ∧ "0001_foo_a".toList ≠ "0001_foo_b".toList
    ∧ ¬ (([⟨"0001_foo_a".toList, "foo_0001".toList, []⟩,
           ⟨"0001_foo_b".toList, "foo_0001".toList, []⟩] : List Row).map
          (fun r => r.description)).Nodup :=
  ⟨by decide, by decide, by decide⟩

/-- C2 (amended): descriptions in the returned table are unique provided the
derived descriptions of the parsed decoys are pairwise distinct; pairwise
distinctness of the decoys themselves is not enough. -/
theorem c2_amended_unique_descriptions (files : List (PyStr × Option JobRecord))
    (rows : List Row) (h : collect_scores_table files = .ok rows)
    (h2 : ((((files.filter (fun p => matchScoreJson p.1)).map (fun p => p.2)).filterMap id).map
        (fun rec => deriveDescription rec.decoy)).Nodup) :
    (rows.map (fun r => r.description)).Nodup := by
  obtain ⟨recs, hp, hne, hrows⟩ := collect_scores_table_ok files rows h
  subst hrows
  have hl := parseAll_ok_eq _ _ hp
  have hfm : ((files.filter (fun p => matchScoreJson p.1)).map (fun p => p.2)).filterMap id
      = recs := by
    rw [hl, List.filterMap_map]
    simp
  rw [hfm] at h2
  have : (recs.map toRow).map (fun r => r.description)
      = recs.map (fun rec => deriveDescription rec.decoy) := by
    rw [List.map_map]
    rfl
  rw [this]
  exact h2

theorem c2_witness :
    (([⟨"0001_a_x".toList, "a_0001".toList, []⟩,
       ⟨"0002_b_x".toList, "b_0002".toList, []⟩] : List Row).map
      (fun r => r.description)).Nodup :=
  c2_amended_unique_descriptions
    [("r0001_a_score.json".toList, some ⟨"0001_a_x".toList, []⟩),
     ("r0002_b_score.json".toList, some ⟨"0002_b_x".toList, []⟩)]
    [⟨"0001_a_x".toList, "a_0001".toList, []⟩, ⟨"0002_b_x".toList, "b_0002".toList, []⟩]
    (by decide) (by decide)

/-- C3 (counterexample): on a directory with no file matching
`r*_*_score.json` — e.g. an already-reconciled one holding only the renamed
`foo_0001.pdb`, or an empty one — `collect_scores` raises `KeyError` at the
`scores_df["raw_description"]` access (an empty DataFrame has no columns); it
does not return an empty table. -/
theorem c3_counterexample :
    collect_scores_table [("foo_0001.pdb".toList, none)] = .error keyErrMsg
    ∧ collect_scores_table ([] : List (PyStr × Option JobRecord)) = .error keyErrMsg :=
  ⟨by decide, by decide⟩

/-- C3 (amended): whenever no file of the working directory matches the
job-record pattern, `collect_scores` signals the `KeyError` rather than
returning an empty table. -/
theorem c3_amended_no_records_error (files : List (PyStr × Option JobRecord))
    (h : ∀ p ∈ files, matchScoreJson p.1 = false) :
    collect_scores_table files = .error keyErrMsg := by
  have hf : files.filter (fun p => matchScoreJson p.1) = [] := by
    rw [List.filter_eq_nil_iff]
    intro p hp
    simp [h p hp]
  unfold collect_scores_table
  rw [hf]
  rfl

theorem c3_witness :
    collect_scores_table [("foo_0001.pdb".toList, none), ("bar.txt".toList, none)]
      = .error keyErrMsg :=
  c3_amended_no_records_error _ (by decide)

/-- C4 (counterexample): with one malformed and one well-formed record file in
the directory, the whole batch aborts with the parse error; dropping the
malformed file shows the well-formed row would otherwise be produced. -/
theorem c4_counterexample :
    collect_scores_table
        [("r0001_a_score.json".toList, some ⟨"0001_a_x".toList, []⟩),
         ("r0002_b_score.json".toList, none)]
      = .error parseErrMsg
    ∧ collect_scores_table [("r0001_a_score.json".toList, some ⟨"0001_a_x".toList, []⟩)]
      = .ok [⟨"0001_a_x".toList, "a_0001".toList, []⟩] :=
  ⟨by decide, by decide⟩

/-- C4 (amended): a single malformed record file aborts the whole
`collect_scores` batch with the parse error; no row is returned for any
well-formed file. -/
theorem c4_amended_batch_abort (files : List (PyStr × Option JobRecord))
    (p : PyStr × Option JobRecord) (hp : p ∈ files)
    (hm : matchScoreJson p.1 = true) (hnone : p.2 = none) :
    collect_scores_table files = .error parseErrMsg := by
  have hmem : (none : Option JobRecord)
      ∈ (files.filter (fun q => matchScoreJson q.1)).map (fun q => q.2) := by
    rw [← hnone]
    exact List.mem_map_of_mem _ (List.mem_filter.mpr ⟨hp, hm⟩)
  unfold collect_scores_table
  rw [parseAll_none_mem _ hmem]

theorem c4_witness :
    collect_scores_table
        [("r0001_a_score.json".toList, some ⟨"0001_a_x".toList, []⟩),
         ("r0002_b_score.json".toList, none),
         ("r0003_c_score.json".toList, some ⟨"0003_c_x".toList, []⟩)]
      = .error parseErrMsg :=
  c4_amended_batch_abort _ ("r0002_b_score.json".toList, none)
    (by decide) (by decide) rfl

/-- C8 (confirmed): discovering the same record files in a different order
permutes the rows of the returned table but leaves the multiset of
`(raw_description, description)` pairs, and hence description uniqueness,
unchanged. -/
theorem c8_order_independence (l1 l2 : List (PyStr × Option JobRecord)) (rows1 : List Row)
    (hperm : l1.Perm l2) (h1 : collect_scores_table l1 = .ok rows1) :
    ∃ rows2, collect_scores_table l2 = .ok rows2
      ∧ (rows1.map (fun r => (r.raw_description, r.description))).Perm
          (rows2.map (fun r => (r.raw_description, r.description)))
      ∧ ((rows1.map (fun r => r.description)).Nodup
          ↔ (rows2.map (fun r => r.description)).Nodup) := by
  obtain ⟨recs1, hp1, hne1, hrows1⟩ := collect_scores_table_ok l1 rows1 h1
  have hm : ((l1.filter (fun p => matchScoreJson p.1)).map (fun p => p.2)).Perm
      ((l2.filter (fun p => matchScoreJson p.1)).map (fun p => p.2)) :=
    (hperm.filter _).map _
  have hl1 := parseAll_ok_eq _ _ hp1
  have hall2 : ∀ x ∈ (l2.filter (fun p => matchScoreJson p.1)).map (fun p => p.2),
      x ≠ none := by
    intro x hx
    have hx1 : x ∈ (l1.filter (fun p => matchScoreJson p.1)).map (fun p => p.2) :=
      hm.mem_iff.mpr hx
    rw [hl1] at hx1
    obtain ⟨rec, _, hrec⟩ := List.mem_map.mp hx1
    rw [← hrec]
    simp
  have hm2eq := all_some_eq_filterMap _ hall2
  have hp2 : parseAll ((l2.filter (fun p => matchScoreJson p.1)).map (fun p => p.2))
      = .ok (((l2.filter (fun p => matchScoreJson p.1)).map (fun p => p.2)).filterMap id) := by
    rw [hm2eq, parseAll_map_some]
    rw [← hm2eq]
  have hrecs1 : recs1 = ((l1.filter (fun p => matchScoreJson p.1)).map (fun p => p.2)).filterMap id := by
    rw [hl1, List.filterMap_map]
    simp
  have hrecsperm : recs1.Perm
      (((l2.filter (fun p => matchScoreJson p.1)).map (fun p => p.2)).filterMap id) := by
    rw [hrecs1]
    exact hm.filterMap _
  have hne2 : (((l2.filter (fun p => matchScoreJson p.1)).map (fun p => p.2)).filterMap id).isEmpty
      = false := by
    have hlen := hrecsperm.length_eq
    cases hq : ((l2.filter (fun p => matchScoreJson p.1)).map (fun p => p.2)).filterMap id with
    | nil =>
      rw [hq] at hlen
      exact absurd (List.length_eq_zero.mp hlen) hne1
    | cons a as => rfl
  refine ⟨(((l2.filter (fun p => matchScoreJson p.1)).map (fun p => p.2)).filterMap id).map toRow,
    ?_, ?_, ?_⟩
  · unfold collect_scores_table
    rw [hp2]
    dsimp only
    rw [hne2]
    rfl
  · rw [hrows1, List.map_map, List.map_map]
    exact hrecsperm.map _
  · have hdperm : (rows1.map (fun r => r.description)).Perm
        (((((l2.filter (fun p => matchScoreJson p.1)).map (fun p => p.2)).filterMap id).map toRow).map
          (fun r => r.description)) := by
      rw [hrows1, List.map_map, List.map_map]
      exact hrecsperm.map _
    exact hdperm.nodup_iff

theorem c8_witness :
    ∃ rows2,
      collect_scores_table
          [("r0002_b_score.json".toList, some ⟨"0002_b_x".toList, []⟩),
           ("r0001_a_score.json".toList, some ⟨"0001_a_x".toList, []⟩)]
        = .ok rows2
      ∧ (([⟨"0001_a_x".toList, "a_0001".toList, []⟩,
           ⟨"0002_b_x".toList, "b_0002".toList, []⟩] : List Row).map
            (fun r => (r.raw_description, r.description))).Perm
          (rows2.map (fun r => (r.raw_description, r.description)))
      ∧ ((([⟨"0001_a_x".toList, "a_0001".toList, []⟩,
            ⟨"0002_b_x".toList, "b_0002".toList, []⟩] : List Row).map
            (fun r => r.description)).Nodup
          ↔ (rows2.map (fun r => r.description)).Nodup) :=
  c8_order_independence
    [("r0001_a_score.json".toList, some ⟨"0001_a_x".toList, []⟩),
     ("r0002_b_score.json".toList, some ⟨"0002_b_x".toList, []⟩)]
    [("r0002_b_score.json".toList, some ⟨"0002_b_x".toList, []⟩),
     ("r0001_a_score.json".toList, some ⟨"0001_a_x".toList, []⟩)]
    [⟨"0001_a_x".toList, "a_0001".toList, []⟩, ⟨"0002_b_x".toList, "b_0002".toList, []⟩]
    (by decide) (by decide)

/-- Witness fixture: a directory trace whose `r*.pdb` artifacts appear only at
poll 3. -/
def traceEx : Nat → List PyStr :=
  fun t => if t < 3 then [] else ["r0001_a_b.pdb".toList, "r0002_c_d.pdb".toList]

/-- Witness fixture: a directory trace in which the artifacts never appear. -/
def traceBad : Nat → List PyStr := fun _ => []

/-- Witness fixture: an `isfile` observation that always confirms. -/
def obsTrue : List PyStr → PyStr → Bool := fun _ _ => true

/-- Witness fixture: an `isfile` observation that never confirms. -/
def obsFalse : List PyStr → PyStr → Bool := fun _ _ => false

/-- Witness fixture: a two-row score table. -/
def tableEx : List Row :=
  [⟨"0001_a_x".toList, "a_0001".toList, []⟩, ⟨"0002_c_x".toList, "c_0002".toList, []⟩]

/-- C5 (confirmed): the barrier of lines 140-141 hands control to the rename
loop exactly at the first poll where the `r*.pdb` count reaches the table's
row count, having found the count short at every earlier poll (one poll per
time unit); and if the count stays short forever, the loop neither renames
anything nor fails, for any number of polls. -/
theorem c5_barrier_spec (trace : Nat → List PyStr) (obs : List PyStr → PyStr → Bool)
    (table : List Row) (fuel t s : Nat) :
    (barrierLoop trace table.length fuel 0 = some t → table.length ≤ rpdbCount trace t)
    ∧ (barrierLoop trace table.length fuel 0 = some t → s < t →
        rpdbCount trace s < table.length)
    ∧ ((∀ u, rpdbCount trace u < table.length) →
        barrierLoop trace table.length fuel 0 = none
        ∧ collectAfterTable trace obs table fuel = none) := by
  refine ⟨fun h => (barrierLoop_some _ _ _ _ _ h).1,
    fun h hs => (barrierLoop_some _ _ _ _ _ h).2 s (Nat.zero_le s) hs,
    fun hall => ?_⟩
  have hn := barrierLoop_none trace table.length fuel 0 hall
  refine ⟨hn, ?_⟩
  unfold collectAfterTable
  rw [hn]

theorem c5_witness :
    (tableEx.length ≤ rpdbCount traceEx 3
      ∧ rpdbCount traceEx 1 < tableEx.length)
    ∧ (barrierLoop traceBad tableEx.length 7 0 = none
      ∧ collectAfterTable traceBad obsTrue tableEx 7 = none) :=
  ⟨⟨(c5_barrier_spec traceEx obsTrue tableEx 9 3 1).1 (by decide),
    (c5_barrier_spec traceEx obsTrue tableEx 9 3 1).2.1 (by decide) (by decide)⟩,
   (c5_barrier_spec traceBad obsTrue tableEx 7 3 1).2.2
     (fun u => by simp [rpdbCount, traceBad, tableEx])⟩

/-- C6 (counterexample): in the main rename loop, when the `isfile` check
reports the target absent right after a successful rename, the retry calls
`shutil.move` on a source that the first move already consumed, so the loop
raises `FileNotFoundError` instead of merely warning. -/
theorem c6_counterexample :
    renameLoop obsFalse ["r0001_a_b.pdb".toList]
        [("r0001_a_b".toList, "a_0001".toList)]
      = (.error ("FileNotFoundError: ".toList ++ "r0001_a_b.pdb".toList),
         [.moveAttempt "r0001_a_b.pdb".toList "a_0001.pdb".toList,
          .warn "r0001_a_b.pdb".toList "a_0001.pdb".toList,
          .moveAttempt "r0001_a_b.pdb".toList "a_0001.pdb".toList]) := by decide

/-- C6 (amended): for a row whose rename target is not observably present
immediately after the rename, the loop prints one warning and retries the
rename exactly once more (two move attempts in total); but since the first
move already removed the source, the unverified retry raises
`FileNotFoundError` (whenever the new name differs from the old) rather than
proceeding silently. -/
theorem c6_amended_retry_once_raises (obs : List PyStr → PyStr → Bool) (fs : List PyStr)
    (oldName newName : PyStr)
    (hsrc : oldName ++ ".pdb".toList ∈ fs)
    (hobs : obs (movedFs fs (oldName ++ ".pdb".toList) (newName ++ ".pdb".toList))
        (newName ++ ".pdb".toList) = false)
    (hne : newName ++ ".pdb".toList ≠ oldName ++ ".pdb".toList) :
    renameOne obs fs oldName newName
      = (.error ("FileNotFoundError: ".toList ++ (oldName ++ ".pdb".toList)),
         [.moveAttempt (oldName ++ ".pdb".toList) (newName ++ ".pdb".toList),
          .warn (oldName ++ ".pdb".toList) (newName ++ ".pdb".toList),
          .moveAttempt (oldName ++ ".pdb".toList) (newName ++ ".pdb".toList)]) := by
  have h1 : shutilMove fs (oldName ++ ".pdb".toList) (newName ++ ".pdb".toList)
      = .ok (movedFs fs (oldName ++ ".pdb".toList) (newName ++ ".pdb".toList)) := by
    unfold shutilMove
    rw [if_pos hsrc]
  have h2 : shutilMove (movedFs fs (oldName ++ ".pdb".toList) (newName ++ ".pdb".toList))
      (oldName ++ ".pdb".toList) (newName ++ ".pdb".toList)
      = .error ("FileNotFoundError: ".toList ++ (oldName ++ ".pdb".toList)) := by
    unfold shutilMove
    rw [if_neg (src_not_mem_movedFs _ _ _ hne)]
  unfold renameOne
  rw [h1]
  dsimp only
  rw [hobs, if_neg Bool.false_ne_true, h2]

theorem c6_witness :
    renameOne obsFalse ["r0001_a_b.pdb".toList] "r0001_a_b".toList "a_0001".toList
      = (.error ("FileNotFoundError: ".toList ++ ("r0001_a_b".toList ++ ".pdb".toList)),
         [.moveAttempt ("r0001_a_b".toList ++ ".pdb".toList) ("a_0001".toList ++ ".pdb".toList),
          .warn ("r0001_a_b".toList ++ ".pdb".toList) ("a_0001".toList ++ ".pdb".toList),
          .moveAttempt ("r0001_a_b".toList ++ ".pdb".toList) ("a_0001".toList ++ ".pdb".toList)]) :=
  c6_amended_retry_once_raises obsFalse ["r0001_a_b.pdb".toList]
    "r0001_a_b".toList "a_0001".toList (by decide) (by decide) (by decide)

/-- C7 (counterexample): the leftover file `rfoo.pdb` matches `r*.pdb` and is
swept, but it is renamed to `_foo.pdb.pdb`, which differs from the canonical
name `_foo.pdb` that the row rule would assign to the raw name `rfoo`; so the
sweep's rule is not the same as the row rule on every matching leftover. -/
theorem c7_counterexample :
    sweepPhase ["rfoo.pdb".toList]
      = (.ok ["_foo.pdb.pdb".toList], [("rfoo.pdb".toList, "_foo.pdb.pdb".toList)])
    ∧ matchRPdb "rfoo.pdb".toList = true
    ∧ deriveDescription "rfoo".toList ++ ".pdb".toList = "_foo.pdb".toList
    ∧ "_foo.pdb.pdb".toList ≠ "_foo.pdb".toList :=
  ⟨by decide, by decide, by decide, by decide⟩

/-- C7 (amended): after the main rename loop, every leftover file matching
`r*.pdb` is renamed — with no table row required — to the name rebuilt from
its own tokens by the sweep rule; and on names of the standard artifact shape
`{raw}.pdb`, where `raw` has at least two underscore tokens and the kept
middle tokens contain no `".pdb"`, that sweep name coincides with the
canonical `{description}.pdb` of the row rule. -/
theorem c7_amended_sweep (fs : List PyStr) (raw : PyStr) (hnd : fs.Nodup)
    (h1 : 2 ≤ (pySplit '_' raw).length)
    (h2 : containsSeq ".pdb".toList
      (joinWith '_' (((pySplit '_' raw).drop 1).dropLast)) = false) :
    (∃ g, sweepPhase fs
        = (.ok g, (fs.filter (fun f => matchRPdb f)).map (fun f => (f, sweepNewName f))))
    ∧ sweepNewName (raw ++ ".pdb".toList) = deriveDescription raw ++ ".pdb".toList := by
  constructor
  · exact sweepGo_ok _ fs (fun f hf => (List.mem_filter.mp hf).1) (hnd.filter _)
  · exact sweepNewName_append_pdb raw h1 h2

theorem c7_witness :
    (∃ g, sweepPhase ["r0001_foo_0001.pdb".toList, "x.pdb".toList]
        = (.ok g, ((["r0001_foo_0001.pdb".toList, "x.pdb".toList] : List PyStr).filter
            (fun f => matchRPdb f)).map (fun f => (f, sweepNewName f))))
    ∧ sweepNewName ("r0001_foo_0001".toList ++ ".pdb".toList)
        = deriveDescription "r0001_foo_0001".toList ++ ".pdb".toList :=
  c7_amended_sweep ["r0001_foo_0001.pdb".toList, "x.pdb".toList]
    "r0001_foo_0001".toList (by decide) (by decide) (by decide)

/-- Witness fixture: a work directory holding one job-record file and one
unrelated file. -/
def fsEx9 : List PyStr := ["r0001_foo_score.json".toList, "keep.pdb".toList]

/-- C9 (confirmed): in `Rosetta.run` with `overwrite` set and an existing work
directory, every file matching `r*_*_score.json` is removed and the removals
all precede the jobstarter dispatch, while no non-matching file is touched by
this cleanup. -/
theorem c9_overwrite_cleanup (stored : Option (List Row)) (fs : List PyStr)
    (f : PyStr) (hf : f ∈ fs) :
    (matchScoreJson f = true →
        f ∉ (rosettaRunPhase1 true true stored fs).2.1
        ∧ RunEv.removeFile f ∈ (rosettaRunPhase1 true true stored fs).2.2)
    ∧ (matchScoreJson f = false →
        f ∈ (rosettaRunPhase1 true true stored fs).2.1
        ∧ RunEv.removeFile f ∉ (rosettaRunPhase1 true true stored fs).2.2)
    ∧ ∃ pre, (rosettaRunPhase1 true true stored fs).2.2 = pre ++ [RunEv.dispatch]
        ∧ ∀ e ∈ pre, ∃ g, e = RunEv.removeFile g ∧ matchScoreJson g = true := by
  refine ⟨fun hm => ⟨?_, ?_⟩, fun hm => ⟨?_, ?_⟩, ?_⟩
  · intro hmem
    have hb := (List.mem_filter.mp hmem).2
    simp [hm] at hb
  · exact List.mem_append_left _ (List.mem_map_of_mem _ (List.mem_filter.mpr ⟨hf, hm⟩))
  · exact List.mem_filter.mpr ⟨hf, by simp [hm]⟩
  · intro hmem
    rcases List.mem_append.mp hmem with hmem | hmem
    · obtain ⟨g, hg, hge⟩ := List.mem_map.mp hmem
      have hgf : g = f := by injection hge
      rw [hgf] at hg
      rw [(List.mem_filter.mp hg).2] at hm
      cases hm
    · simp at hmem
  · refine ⟨(fs.filter (fun x => matchScoreJson x)).map RunEv.removeFile, rfl, ?_⟩
    intro e he
    obtain ⟨g, hg, hge⟩ := List.mem_map.mp he
    exact ⟨g, hge.symm, (List.mem_filter.mp hg).2⟩

theorem c9_witness :
    ("r0001_foo_score.json".toList ∉ (rosettaRunPhase1 true true none fsEx9).2.1
      ∧ RunEv.removeFile "r0001_foo_score.json".toList
          ∈ (rosettaRunPhase1 true true none fsEx9).2.2)
    ∧ ("keep.pdb".toList ∈ (rosettaRunPhase1 true true none fsEx9).2.1
      ∧ RunEv.removeFile "keep.pdb".toList ∉ (rosettaRunPhase1 true true none fsEx9).2.2)
    ∧ ∃ pre, (rosettaRunPhase1 true true none fsEx9).2.2 = pre ++ [RunEv.dispatch]
        ∧ ∀ e ∈ pre, ∃ g, e = RunEv.removeFile g ∧ matchScoreJson g = true :=
  ⟨(c9_overwrite_cleanup none fsEx9 "r0001_foo_score.json".toList (by decide)).1 (by decide),
   (c9_overwrite_cleanup none fsEx9 "keep.pdb".toList (by decide)).2.1 (by decide),
   (c9_overwrite_cleanup none fsEx9 "keep.pdb".toList (by decide)).2.2⟩

/-- Witness fixture: a filesystem holding one scorefile. -/
def fsEx10 : PyStr → Option PyStr :=
  fun p => if p = "in.sc".toList then some "SEQ\na b c\nd e\nf g h\n".toList else none

/-- C10 (confirmed): `clean_rosetta_scorefile` discards the first line of the
input, keeps exactly the remaining lines whose whitespace-split field count
equals the field count of the first remaining line, writes them to `outPath`
one per line with fields joined by commas, returns `outPath`, and — provided
`outPath` is not the input path itself — leaves the input file (and every
other path) unchanged. -/
theorem c10_clean_scorefile (fs : PyStr → Option PyStr) (pathToFile outPath content : PyStr)
    (hread : fs pathToFile = some content) (hne : outPath ≠ pathToFile) :
    clean_rosetta_scorefile fs pathToFile outPath
      = .ok ((fun p => if p = outPath then some (cleanedContent content) else fs p), outPath)
    ∧ (fun p => if p = outPath then some (cleanedContent content) else fs p) pathToFile
        = fs pathToFile
    ∧ (∀ p, p ≠ outPath →
        (fun p => if p = outPath then some (cleanedContent content) else fs p) p = fs p)
    ∧ (fun p => if p = outPath then some (cleanedContent content) else fs p) outPath
        = some (cleanedContent content)
    ∧ scoresLines content = ((pyReadlines content).drop 1).map pySplitWs
    ∧ (∀ line ∈ scoresLines content,
        line ∈ scoresCleaned content
          ↔ line.length = ((scoresLines content).headD []).length)
    ∧ cleanedContent content
        = joinWith '\n' ((scoresCleaned content).map (fun line => joinWith ',' line)) := by
  refine ⟨?_, ?_, ?_, ?_, rfl, ?_, rfl⟩
  · unfold clean_rosetta_scorefile
    rw [hread]
  · simp [Ne.symm hne]
  · intro p hp
    simp [hp]
  · simp
  · intro line hline
    unfold scoresCleaned
    rw [List.mem_filter]
    constructor
    · exact fun h => of_decide_eq_true h.2
    · exact fun h => ⟨hline, decide_eq_true h⟩

theorem c10_witness :
    clean_rosetta_scorefile fsEx10 "in.sc".toList "out.sc".toList
      = .ok ((fun p => if p = "out.sc".toList
            then some (cleanedContent "SEQ\na b c\nd e\nf g h\n".toList)
            else fsEx10 p),
          "out.sc".toList)
    ∧ (fun p => if p = "out.sc".toList
          then some (cleanedContent "SEQ\na b c\nd e\nf g h\n".toList)
          else fsEx10 p) "in.sc".toList
        = fsEx10 "in.sc".toList
    ∧ (∀ p, p ≠ "out.sc".toList →
        (fun p => if p = "out.sc".toList
            then some (cleanedContent "SEQ\na b c\nd e\nf g h\n".toList)
            else fsEx10 p) p = fsEx10 p)
    ∧ (fun p => if p = "out.sc".toList
          then some (cleanedContent "SEQ\na b c\nd e\nf g h\n".toList)
          else fsEx10 p) "out.sc".toList
        = some (cleanedContent "SEQ\na b c\nd e\nf g h\n".toList)
    ∧ scoresLines "SEQ\na b c\nd e\nf g h\n".toList
        = ((pyReadlines "SEQ\na b c\nd e\nf g h\n".toList).drop 1).map pySplitWs
    ∧ (∀ line ∈ scoresLines "SEQ\na b c\nd e\nf g h\n".toList,
        line ∈ scoresCleaned "SEQ\na b c\nd e\nf g h\n".toList
          ↔ line.length
              = ((scoresLines "SEQ\na b c\nd e\nf g h\n".toList).headD []).length)
    ∧ cleanedContent "SEQ\na b c\nd e\nf g h\n".toList
        = joinWith '\n' ((scoresCleaned "SEQ\na b c\nd e\nf g h\n".toList).map
            (fun line => joinWith ',' line)) :=
  c10_clean_scorefile fsEx10 "in.sc".toList "out.sc".toList
    "SEQ\na b c\nd e\nf g h\n".toList (by decide) (by decide)
